import Mathlib

/-!
Verification of the aterminal Teltonika server core against its
natural-language specification.

The development shallowly embeds the Python sources:
  - protocols/codec.py   (crc16, encode_codec12_command, decode_packet, decode_codec8)
  - server/tcp_server.py (ClientHandler.run / stop, TCPServer.register_client,
                          unregister_client, kick_device)
  - server/udp_server.py (UDPServer.run receive-loop body)

Bytes are modelled as Nat (each in [0,256) for real inputs), byte buffers as
List Nat.  Python `struct.unpack` of a fixed-width field is modelled as an
Option that is `none` exactly when the slice does not have the exact width
(struct.error).  Python exceptions caught by the `try` in decode_packet are
modelled by Option plumbing that ends in the parsing-error variant.
-/

set_option maxRecDepth 100000

namespace ATerminal

/-- Big-endian value of a byte list (most significant first),
as produced by int.from_bytes / struct.unpack on the exact slice. -/
def beVal (xs : List Nat) : Nat := xs.foldl (fun a b => a * 256 + b) 0

/-- Model of struct.unpack with format "!I" (4-byte big-endian unsigned):
succeeds only when the buffer is exactly 4 bytes, else struct.error. -/
def unpackU32 (xs : List Nat) : Option Nat :=
  if xs.length = 4 then some (beVal xs) else none

/-- Model of struct.unpack with format "!Q" (8-byte big-endian unsigned). -/
def unpackU64 (xs : List Nat) : Option Nat :=
  if xs.length = 8 then some (beVal xs) else none

/-- Model of struct.unpack with format "!H" (2-byte big-endian unsigned). -/
def unpackU16 (xs : List Nat) : Option Nat :=
  if xs.length = 2 then some (beVal xs) else none

/-- Two-complement reading of a 32-bit unsigned value, for format "!i". -/
def toSigned32 (u : Nat) : Int :=
  if u < 2 ^ 31 then (u : Int) else (u : Int) - 2 ^ 32

/-- Two-complement reading of a 16-bit unsigned value, for format "!h". -/
def toSigned16 (u : Nat) : Int :=
  if u < 2 ^ 15 then (u : Int) else (u : Int) - 2 ^ 16

/-- Model of struct.pack with format "!I": 4 big-endian bytes.
(For arguments below 2 ^ 32, which covers every use in the sources.) -/
def packU32 (n : Nat) : List Nat :=
  [n / 2 ^ 24 % 256, n / 2 ^ 16 % 256, n / 2 ^ 8 % 256, n % 256]

/-- Python slice data[a:b] for 0 <= a <= b: clamps, never raises. -/
def pySlice (xs : List Nat) (a b : Nat) : List Nat :=
  (xs.drop a).take (b - a)

/-- Python slice data[a:-1]: everything from index a up to, but excluding,
the last element (empty when the list is too short). -/
def pySliceToLast (xs : List Nat) (a : Nat) : List Nat :=
  (xs.drop a).take (xs.length - 1 - a)

/-- UTF-8 encoding of one code point. -/
def utf8EncodeChar (c : Char) : List Nat :=
  let n := c.toNat
  if n < 0x80 then [n]
  else if n < 0x800 then
    [0xC0 ||| (n >>> 6), 0x80 ||| (n &&& 0x3F)]
  else if n < 0x10000 then
    [0xE0 ||| (n >>> 12), 0x80 ||| ((n >>> 6) &&& 0x3F), 0x80 ||| (n &&& 0x3F)]
  else
    [0xF0 ||| (n >>> 18), 0x80 ||| ((n >>> 12) &&& 0x3F),
      0x80 ||| ((n >>> 6) &&& 0x3F), 0x80 ||| (n &&& 0x3F)]

/-- UTF-8 bytes of a string, as Python str.encode produces. -/
def utf8Bytes (s : String) : List Nat :=
  s.data.foldr (fun c acc => utf8EncodeChar c ++ acc) []

/-- Lower-case hex digit for a nibble. -/
def hexDigit (n : Nat) : Char :=
  let m := n % 16
  if m < 10 then Char.ofNat (48 + m) else Char.ofNat (97 + (m - 10))

/-- Model of binascii.hexlify(..).decode(): two lower-case hex chars per byte. -/
def hexlify (xs : List Nat) : String :=
  String.mk (xs.foldr (fun b acc => hexDigit (b / 16) :: hexDigit b :: acc) [])

/-! ## CRC-16 (protocols/codec.py, crc16) -/

/-- One inner-loop iteration of crc16: shift right once, conditionally
xoring the Modbus polynomial 0xA001 when the low bit was set. -/
def crcShift (crc : Nat) : Nat :=
  if crc &&& 1 = 1 then (crc >>> 1) ^^^ 0xA001 else crc >>> 1

/-- Per-byte step of crc16: crc ^= byte, then 8 shift iterations. -/
def crcByteStep (crc byte : Nat) : Nat :=
  crcShift^[8] (crc ^^^ byte)

/-- crc16 from protocols/codec.py: initial value 0, poly 0xA001,
processed byte by byte, 8 shifts per byte. -/
def crc16 (data : List Nat) : Nat :=
  data.foldl crcByteStep 0

/-! ## Command encoding (protocols/codec.py, encode_codec12_command)

The Python function first computes a packet that is immediately discarded
(the local variable `packet` is never used); only the second computation,
building `data_for_crc` and `msg`, determines the return value, so only it
is embedded.  Note the CRC is computed over `data_for_crc[3:]`, skipping
the codec, record-count and sub-command bytes. -/

/-- encode_codec12_command from protocols/codec.py. -/
def encode_codec12_command (command : String) : List Nat :=
  let cmd_body := utf8Bytes command
  let data_len := cmd_body.length
  let data_for_crc :=
    0x0C :: 0x01 :: 0x05 :: (packU32 data_len ++ cmd_body ++ [0x01])
  let full_data_len := data_for_crc.length
  let crc := crc16 (data_for_crc.drop 3)
  [0, 0, 0, 0] ++ packU32 full_data_len ++ data_for_crc ++ packU32 crc

/-! ## Packet decoding (protocols/codec.py, decode_packet / decode_codec8) -/

/-- One decoded AVL record, mirroring the record dict built by
decode_codec8.  The Python code converts the millisecond timestamp to a
local datetime; the raw millisecond value is kept here.  Longitude and
latitude are stored as the signed 32-bit integers read from the wire; the
Python code divides them by 1e7 with float division, so the float it
stores denotes exactly this integer scaled by 1e-7 (the float itself is
not representable exactly and is kept as the raw numerator).  Altitude is
the signed 16-bit reading. -/
structure AvlRecord where
  timestampMs : Nat
  priority : Nat
  longitude : Int
  latitude : Int
  altitude : Int
  angle : Nat
  satellites : Nat
  speed : Nat
  event_io_id : Nat
  total_io_count : Nat
deriving DecidableEq, Repr

/-- The dict returned by decode_codec8: a type label, the declared record
count, and the decoded records. -/
structure AvlPacket where
  ptype : String
  record_count : Nat
  records : List AvlRecord
deriving DecidableEq, Repr

/-- Outcome of the Python call json.loads(data.decode()) inside
decode_packet: success, a json.JSONDecodeError (caught locally, falls
through to binary parsing), or any other exception such as
UnicodeDecodeError (propagates to the outer handler).  The function is a
parameter of the embedding because json.loads is library code outside this
repository; every theorem below either quantifies over it or concerns
inputs that do not reach the JSON branch. -/
inductive PyJson where
  | ok
  | decodeError
  | exn (msg : String)
deriving DecidableEq, Repr

/-- A json.loads model that always reports a JSONDecodeError, used to
instantiate theorems on inputs whose first byte is not 0x7B, where
decode_packet never consults it. -/
def jsonNever : List Nat → PyJson := fun _ => PyJson.decodeError

/-- The dict returned by decode_packet, as a tagged variant. -/
inductive DecodedPacket where
  /-- type "JSON" with the parsed payload. -/
  | json
  /-- type "unknown", error "Invalid preamble". -/
  | invalidPreamble
  /-- type "corrupt" carrying the received and the calculated CRC. -/
  | corrupt (received calculated : Nat)
  /-- the dict built by decode_codec8. -/
  | avl (p : AvlPacket)
  /-- type "Codec 12 Response" with crc_data[5:-1] (utf-8, errors ignored;
  the raw bytes of the slice are kept). -/
  | codec12Response (payload : List Nat)
  /-- type "Codec 17 Response", a fixed placeholder. -/
  | codec17Response
  /-- type "Codec {id}" carrying the hexlified crc_data. -/
  | unknownCodec (codecId : Nat) (hexData : String)
  /-- type "parsing_error" with str(e) and the hexlified raw input. -/
  | parsingError (msg : String) (rawHex : String)
deriving DecidableEq, Repr

/-- Boolean test that a decode outcome is the parsing-error variant
carrying the given raw hex string. -/
def hasParsingErrorRaw (d : DecodedPacket) (raw : String) : Bool :=
  match d with
  | .parsingError _ r => r == raw
  | _ => false

/-- Model of datetime.fromtimestamp(ms / 1000.0) succeeding: the result
must land inside the datetime year range 1..9999.  In the reference
environment (CPython on a UTC host) the call raises ValueError exactly
when the millisecond value exceeds 253402300799999 (the last millisecond
of 9999-12-31 UTC: 2 ^ 48 ms, for instance, is year 10889 and raises); a
non-UTC local timezone shifts this cutoff by the UTC offset, at most a
day either way.  Nonnegative inputs never fall below datetime.min on such
hosts. -/
def fromtimestampOk (ms : Nat) : Bool := ms ≤ 253402300799999

/-- Parse the single fixed-layout record of decode_codec8, starting at
offset 2: 8-byte timestamp (converted with datetime.fromtimestamp, which
raises out of range — see fromtimestampOk), 1-byte priority, 4-byte
signed longitude, 4-byte signed latitude, 2-byte signed altitude, 2-byte
unsigned angle, 1-byte satellites, 2-byte unsigned speed, 1-byte event IO
id, 1-byte total IO count.  Any short read, like the out-of-range
timestamp, is an exception (none). -/
def parseCodec8Record (data : List Nat) : Option AvlRecord := do
  let ts ← unpackU64 (pySlice data 2 10)
  let _ ← if fromtimestampOk ts then some () else none
  let pr ← data.get? 10
  let lonU ← unpackU32 (pySlice data 11 15)
  let latU ← unpackU32 (pySlice data 15 19)
  let altU ← unpackU16 (pySlice data 19 21)
  let ang ← unpackU16 (pySlice data 21 23)
  let sat ← data.get? 23
  let spd ← unpackU16 (pySlice data 24 26)
  let evId ← data.get? 26
  let cnt ← data.get? 27
  some
    { timestampMs := ts
      priority := pr
      longitude := toSigned32 lonU
      latitude := toSigned32 latU
      altitude := toSigned16 altU
      angle := ang
      satellites := sat
      speed := spd
      event_io_id := evId
      total_io_count := cnt }

/-- decode_codec8 from protocols/codec.py.  The per-record loop appends the
first record and then breaks, so the record list has at most one element;
with a declared count of 0 the loop body never runs.  A failed byte read is
an exception, surfaced as none and converted to the parsing-error variant
by decode_packet. -/
def decode_codec8 (data : List Nat) : Option AvlPacket := do
  let codecId ← data.get? 0
  let numRecords ← data.get? 1
  let records ←
    if numRecords = 0 then some ([] : List AvlRecord)
    else (parseCodec8Record data).map (fun r => [r])
  some
    { ptype := if codecId = 0x8E then "Codec 8 Extended" else "Codec 8"
      record_count := numRecords
      records := records }

/-- The binary ("Standard Teltonika packet structure") section of
decode_packet: 4-byte preamble, 4-byte data field length, CRC data, 4-byte
expected CRC, then dispatch on the codec byte.  Exceptions (short unpack
slices, empty crc data, short codec-8 reads, out-of-range timestamps)
become the parsing-error variant, mirroring the enclosing try in the
Python function; each message literal is a fixed placeholder for the
str(e) of whichever exception escaped (struct.error, IndexError, or the
datetime ValueError), which no claim inspects. -/
def decodeBinary (data : List Nat) : DecodedPacket :=
  match unpackU32 (pySlice data 0 4), unpackU32 (pySlice data 4 8) with
  | some preamble, some data_field_length =>
    if preamble ≠ 0 then .invalidPreamble
    else
      let crc_data := pySlice data 8 (8 + data_field_length)
      match unpackU32 (data.drop (8 + data_field_length)) with
      | some received_crc =>
        let calculated_crc := crc16 crc_data
        if received_crc ≠ calculated_crc then
          .corrupt received_crc calculated_crc
        else
          match crc_data with
          | [] => .parsingError "index out of range" (hexlify data)
          | codec_id :: _ =>
            if codec_id = 0x08 ∨ codec_id = 0x8E then
              match decode_codec8 crc_data with
              | some p => .avl p
              | none => .parsingError "struct.error" (hexlify data)
            else if codec_id = 0x0C then
              .codec12Response (pySliceToLast crc_data 5)
            else if codec_id = 0x11 then
              .codec17Response
            else
              .unknownCodec codec_id (hexlify crc_data)
      | none =>
        .parsingError "unpack requires a buffer of 4 bytes" (hexlify data)
  | _, _ =>
    .parsingError "unpack requires a buffer of 4 bytes" (hexlify data)

/-- decode_packet from protocols/codec.py.  jload models json.loads on the
decoded input (see PyJson); the JSON fast path triggers only when the
buffer starts with 0x7B and ends with 0x7D. -/
def decode_packet (jload : List Nat → PyJson) (data : List Nat) : DecodedPacket :=
  if data.head? = some 0x7B ∧ data.getLast? = some 0x7D then
    match jload data with
    | .ok => .json
    | .exn msg => .parsingError msg (hexlify data)
    | .decodeError => decodeBinary data
  else decodeBinary data

/-! ## Server model (server/tcp_server.py and server/udp_server.py)

Device identifiers are kept as the raw byte lists the handlers slice out of
the identity frame (the Python code decodes them to str; for the 15 ASCII
digits of the protocol this is a bijection).  Handler objects are
referenced by an abstract Nat handle; Python reference identity (the `is`
test in unregister_client) is equality of handles.  Qt signal emissions,
socket writes and log lines are recorded as an ordered event list. -/

/-- The observable emissions of the servers: Qt signals, socket writes,
transport teardown, and log lines (tracked by severity). -/
inductive Event where
  | connected (imei : List Nat)
  | disconnected (imei : List Nat)
  | dataReceived (imei : List Nat) (raw : List Nat) (decoded : DecodedPacket)
  | logInfo
  | logWarn
  | logError
  | send (bytes : List Nat)
  | sendto (addr : Nat) (bytes : List Nat)
  | shutdown (h : Nat)
  | close (h : Nat)
deriving DecidableEq, Repr

/-- The mutable per-connection fields of a ClientHandler that the claims
depend on: the identity it registered (None before handshake) and the
running flag. -/
structure Handler where
  imei : Option (List Nat)
  is_running : Bool
deriving DecidableEq, Repr

/-- State of a TCPServer together with its handler objects: the
client_handlers map, the handler object per handle, and the emitted
events. -/
structure World where
  registry : List Nat → Option Nat
  store : Nat → Handler
  events : List Event

/-- TCPServer.register_client: unconditional insert or overwrite, then the
device_connected signal. -/
def register_client (w : World) (imei : List Nat) (h : Nat) : World :=
  { w with
    registry := fun x => if x = imei then some h else w.registry x
    events := w.events ++ [Event.connected imei] }

/-- TCPServer.unregister_client: deletes the map entry only when the entry
currently stored for imei is the very handler that is stopping, and only
then fires device_disconnected. -/
def unregister_client (w : World) (imei : List Nat) (h : Nat) : World :=
  if w.registry imei = some h then
    { w with
      registry := fun x => if x = imei then none else w.registry x
      events := w.events ++ [Event.disconnected imei] }
  else w

/-- ClientHandler.stop: returns at once when already stopped; otherwise
clears the running flag, unregisters when an imei was set (which may fire
device_disconnected), logs the closing line, then shuts down and closes the
connection (OSError from shutdown is swallowed). -/
def handlerStop (w : World) (r : Nat) : World :=
  let h := w.store r
  if h.is_running = false then w
  else
    let w1 : World :=
      { w with store := fun x => if x = r then { h with is_running := false } else w.store x }
    let w2 :=
      match h.imei with
      | some m => unregister_client w1 m r
      | none => w1
    { w2 with events := w2.events ++ [Event.logInfo, Event.shutdown r, Event.close r] }

/-- TCPServer.kick_device: looks the handler up under the lock; when found,
logs the kicking line and stops it; when absent, logs an error. -/
def kick_device (w : World) (imei : List Nat) : World :=
  match w.registry imei with
  | some r => handlerStop { w with events := w.events ++ [Event.logWarn] } r
  | none => { w with events := w.events ++ [Event.logError] }

/-- The dict key "type" of each decode_packet outcome, as the Python
membership test decoded_data.get('type') in [...] sees it. -/
def ptypeOf : DecodedPacket → String
  | .json => "JSON"
  | .invalidPreamble => "unknown"
  | .corrupt _ _ => "corrupt"
  | .avl p => p.ptype
  | .codec12Response _ => "Codec 12 Response"
  | .codec17Response => "Codec 17 Response"
  | .unknownCodec cid _ => "Codec " ++ toString cid
  | .parsingError _ _ => "parsing_error"

/-- The dict lookup decoded_data.get('record_count', 0): only the dict
built by decode_codec8 carries the key. -/
def recordCountOf : DecodedPacket → Nat
  | .avl p => p.record_count
  | _ => 0

/-- First-frame branch of ClientHandler.run (self.imei still None): a
buffer of at least 17 bytes starting 0x00 0x0F sets self.imei from bytes
[2:17], registers with the server and acknowledges with the single byte
0x01 (after the advisory debug delay); anything else logs a warning and
leaves the loop. -/
def tcp_handle_first (w : World) (r : Nat) (data : List Nat) : World :=
  if 17 ≤ data.length ∧ pySlice data 0 2 = [0x00, 0x0F] then
    let m := pySlice data 2 17
    let w1 : World :=
      { w with store := fun x => if x = r then { w.store x with imei := some m } else w.store x }
    let w2 := register_client w1 m r
    { w2 with events := w2.events ++ [Event.send [0x01]] }
  else
    { w with events := w.events ++ [Event.logWarn] }

/-- Identified branch of ClientHandler.run: decode, emit data_received,
and when the decoded type is an AVL dict reply with the 4-byte big-endian
declared record count (after the advisory debug delay).  The dict is
always truthy, so only the type membership decides the reply. -/
def tcp_handle_data (jload : List Nat → PyJson) (imei : List Nat) (data : List Nat) :
    List Event :=
  let decoded := decode_packet jload data
  [Event.dataReceived imei data decoded] ++
    (if ptypeOf decoded = "Codec 8" ∨ ptypeOf decoded = "Codec 8 Extended" then
      [Event.send (packU32 (recordCountOf decoded))]
    else [])

/-- State of the UDPServer loop: the address to imei map and the emitted
events.  Source addresses are abstract Nat handles. -/
structure UdpState where
  clients : Nat → Option (List Nat)
  events : List Event

/-- The placeholder label the UDP loop synthesizes for an unknown source
address. -/
def udpPlaceholder (addr : Nat) : List Nat :=
  utf8Bytes ("Unknown@" ++ toString addr)

/-- One iteration of the UDPServer.run receive loop for a datagram from
addr.  The identity branch requires STRICTLY more than 17 bytes.  In the
data branch, after data_received is emitted, the AVL acknowledgment line
executes struct.pack, but server/udp_server.py never imports struct, so
the line raises NameError; the loop catches it and logs
"UDP Server loop error" at severity error, and nothing is sent. -/
def udp_step (jload : List Nat → PyJson) (st : UdpState) (addr : Nat) (data : List Nat) :
    UdpState :=
  if 17 < data.length ∧ pySlice data 0 2 = [0x00, 0x0F] then
    let imei := pySlice data 2 17
    let st1 :=
      if st.clients addr = none then
        { st with
          clients := fun a => if a = addr then some imei else st.clients a
          events := st.events ++ [Event.connected imei] }
      else st
    { st1 with events := st1.events ++ [Event.sendto addr [0x01]] }
  else
    let imei := (st.clients addr).getD (udpPlaceholder addr)
    let decoded := decode_packet jload data
    let st1 := { st with events := st.events ++ [Event.dataReceived imei data decoded] }
    if ptypeOf decoded = "Codec 8" ∨ ptypeOf decoded = "Codec 8 Extended" then
      { st1 with events := st1.events ++ [Event.logError] }
    else st1

/-! ## Concrete inputs used by the code-bug demonstrations and witnesses -/

/-- The 15 ASCII digits "123456789012345" used by the end-to-end scenario
of the specification. -/
def imeiDigits : List Nat := utf8Bytes "123456789012345"

/-- A 17-byte identity frame: 0x00 0x0F plus 15 ASCII digits. -/
def idFrame17 : List Nat := [0x00, 0x0F] ++ imeiDigits

/-- CRC data of a valid Codec 8 frame that declares 3 records but embeds
only one (all-zero) record: codec byte 0x08, count 3, 26 record bytes. -/
def avlCrcData : List Nat := [0x08, 3] ++ List.replicate 26 0

/-- A 28-byte Codec 8 payload declaring 1 record whose 8-byte timestamp
is 2 ^ 48 milliseconds — year 10889, beyond the datetime range, so
datetime.fromtimestamp raises on it. -/
def avlCrcDataFar : List Nat :=
  [0x08, 1] ++ [0, 1, 0, 0, 0, 0, 0, 0] ++ List.replicate 18 0

/-- A well-formed frame around avlCrcDataFar. -/
def avlFrameFar : List Nat :=
  [0, 0, 0, 0] ++ packU32 28 ++ avlCrcDataFar ++ packU32 (crc16 avlCrcDataFar)

/-- A well-formed Codec 8 frame around avlCrcData: zero preamble, 4-byte
length 28, the CRC data, 4-byte CRC. -/
def avlFrame : List Nat :=
  [0, 0, 0, 0] ++ packU32 28 ++ avlCrcData ++ packU32 (crc16 avlCrcData)

/-- The record parsed out of avlFrame (all fields zero). -/
def zeroRecord : AvlRecord :=
  { timestampMs := 0, priority := 0, longitude := 0, latitude := 0,
    altitude := 0, angle := 0, satellites := 0, speed := 0,
    event_io_id := 0, total_io_count := 0 }

/-- A well-formed frame whose CRC data is the single codec byte 0x11. -/
def codec17Frame : List Nat :=
  [0, 0, 0, 0] ++ packU32 1 ++ [0x11] ++ packU32 (crc16 [0x11])

/-- A well-formed frame whose CRC data is the single codec byte 0x05. -/
def codec5Frame : List Nat :=
  [0, 0, 0, 0] ++ packU32 1 ++ [0x05] ++ packU32 (crc16 [0x05])

/-- A frame like codec5Frame but with an expected CRC of 0, which cannot
match crc16 of its CRC data. -/
def corruptFrame : List Nat :=
  [0, 0, 0, 0] ++ packU32 1 ++ [0x05] ++ [0, 0, 0, 0]

/-- An empty UDP client map with no recorded events. -/
def udpEmpty : UdpState := { clients := fun _ => none, events := [] }

/-- A UDP state in which address 0 is already identified as imeiDigits. -/
def udpKnown : UdpState :=
  { clients := fun a => if a = 0 then some imeiDigits else none, events := [] }

/-- A world with one registered, running handler: handle 3 owns
imeiDigits. -/
def worldOne : World :=
  { registry := fun m => if m = imeiDigits then some 3 else none
    store := fun r =>
      if r = 3 then { imei := some imeiDigits, is_running := true }
      else { imei := none, is_running := false }
    events := [] }

/-- A world with an empty registry. -/
def worldEmpty : World :=
  { registry := fun _ => none
    store := fun _ => { imei := none, is_running := false }
    events := [] }

/-! ## CRC-16 algebra

crc16 is GF(2)-linear in its input: each shift iteration distributes over
xor, hence so does the per-byte step and the whole fold.  A single nonzero
error byte yields a nonzero CRC because every shift iteration sends
nonzero 16-bit values to nonzero 16-bit values.  Together these give the
classical fact that flipping one bit of the input always changes the
CRC. -/

theorem shiftRight_one_xor (x y : Nat) : (x ^^^ y) >>> 1 = x >>> 1 ^^^ y >>> 1 := by
  apply Nat.eq_of_testBit_eq
  intro i
  simp [Nat.testBit_shiftRight, Nat.testBit_xor]

theorem xor_pair_cancel (x y p : Nat) : (x ^^^ p) ^^^ (y ^^^ p) = x ^^^ y := by
  apply Nat.eq_of_testBit_eq
  intro i
  simp only [Nat.testBit_xor]
  generalize x.testBit i = a
  generalize y.testBit i = b
  generalize p.testBit i = c
  cases a <;> cases b <;> cases c <;> rfl

theorem xor_exchange (x y p : Nat) : (x ^^^ y) ^^^ p = (x ^^^ p) ^^^ y := by
  apply Nat.eq_of_testBit_eq
  intro i
  simp only [Nat.testBit_xor]
  generalize x.testBit i = a
  generalize y.testBit i = b
  generalize p.testBit i = c
  cases a <;> cases b <;> cases c <;> rfl

theorem crcShift_zero : crcShift 0 = 0 := by decide

theorem crcShift_xor (a b : Nat) : crcShift (a ^^^ b) = crcShift a ^^^ crcShift b := by
  unfold crcShift
  rw [Nat.and_one_is_mod, Nat.and_one_is_mod, Nat.and_one_is_mod, Nat.xor_mod_two_eq]
  rcases Nat.mod_two_eq_zero_or_one a with ha | ha <;>
    rcases Nat.mod_two_eq_zero_or_one b with hb | hb
  · have hab : (a + b) % 2 = 0 := by omega
    rw [ha, hb, hab, if_neg (by decide : ¬(0 = 1)), if_neg (by decide : ¬(0 = 1)),
      if_neg (by decide : ¬(0 = 1))]
    exact shiftRight_one_xor a b
  · have hab : (a + b) % 2 = 1 := by omega
    rw [ha, hb, hab, if_pos rfl, if_neg (by decide : ¬(0 = 1)), if_pos rfl]
    rw [shiftRight_one_xor, Nat.xor_assoc]
  · have hab : (a + b) % 2 = 1 := by omega
    rw [ha, hb, hab, if_pos rfl, if_pos rfl, if_neg (by decide : ¬(0 = 1))]
    rw [shiftRight_one_xor, xor_exchange]
  · have hab : (a + b) % 2 = 0 := by omega
    rw [ha, hb, hab, if_neg (by decide : ¬(0 = 1)), if_pos rfl, if_pos rfl]
    rw [shiftRight_one_xor, xor_pair_cancel]

theorem crcShift_lt {a : Nat} (h : a < 2 ^ 16) : crcShift a < 2 ^ 16 := by
  have e : (2 : Nat) ^ 16 = 65536 := by norm_num
  have h1 : a >>> 1 < 2 ^ 16 := by
    rw [Nat.shiftRight_one]
    omega
  unfold crcShift
  split
  · exact Nat.xor_lt_two_pow h1 (by norm_num)
  · exact h1

theorem crcShift_ne_zero {a : Nat} (h0 : a ≠ 0) (h : a < 2 ^ 16) : crcShift a ≠ 0 := by
  have e : (2 : Nat) ^ 16 = 65536 := by norm_num
  unfold crcShift
  split
  · intro hz
    have h2 : a >>> 1 = 0xA001 := Nat.xor_eq_zero.mp hz
    rw [Nat.shiftRight_one] at h2
    omega
  · rename_i hcond
    rw [Nat.and_one_is_mod] at hcond
    have h2 : a % 2 = 0 := by rcases Nat.mod_two_eq_zero_or_one a with h' | h' <;> omega
    rw [Nat.shiftRight_one]
    omega

theorem crcShiftIter_xor (n a b : Nat) :
    crcShift^[n] (a ^^^ b) = crcShift^[n] a ^^^ crcShift^[n] b := by
  induction n generalizing a b with
  | zero => rfl
  | succ n ih =>
    rw [Function.iterate_succ_apply, Function.iterate_succ_apply,
      Function.iterate_succ_apply, crcShift_xor, ih]

theorem crcShiftIter_lt (n : Nat) {a : Nat} (h : a < 2 ^ 16) : crcShift^[n] a < 2 ^ 16 := by
  induction n generalizing a with
  | zero => exact h
  | succ n ih =>
    rw [Function.iterate_succ_apply]
    exact ih (crcShift_lt h)

theorem crcShiftIter_ne_zero (n : Nat) {a : Nat} (h0 : a ≠ 0) (h : a < 2 ^ 16) :
    crcShift^[n] a ≠ 0 := by
  induction n generalizing a with
  | zero => exact h0
  | succ n ih =>
    rw [Function.iterate_succ_apply]
    exact ih (crcShift_ne_zero h0 h) (crcShift_lt h)

theorem crcByteStep_xor (c d x y : Nat) :
    crcByteStep (c ^^^ d) (x ^^^ y) = crcByteStep c x ^^^ crcByteStep d y := by
  unfold crcByteStep
  rw [← crcShiftIter_xor]
  congr 1
  apply Nat.eq_of_testBit_eq
  intro i
  simp only [Nat.testBit_xor]
  generalize c.testBit i = p
  generalize d.testBit i = q
  generalize x.testBit i = r
  generalize y.testBit i = s
  cases p <;> cases q <;> cases r <;> cases s <;> rfl

theorem crcByteStep_lt {c b : Nat} (hc : c < 2 ^ 16) (hb : b < 2 ^ 16) :
    crcByteStep c b < 2 ^ 16 :=
  crcShiftIter_lt _ (Nat.xor_lt_two_pow hc hb)

theorem crcByteStep_zero_right_ne {c : Nat} (h0 : c ≠ 0) (hc : c < 2 ^ 16) :
    crcByteStep c 0 ≠ 0 := by
  unfold crcByteStep
  rw [Nat.xor_zero]
  exact crcShiftIter_ne_zero _ h0 hc

theorem foldl_crc_zipWith_xor (xs : List Nat) :
    ∀ (ys : List Nat), xs.length = ys.length → ∀ c d,
      (List.zipWith Nat.xor xs ys).foldl crcByteStep (c ^^^ d) =
        xs.foldl crcByteStep c ^^^ ys.foldl crcByteStep d := by
  induction xs with
  | nil =>
    intro ys h c d
    cases ys with
    | nil => rfl
    | cons y ys => simp at h
  | cons x xs ih =>
    intro ys h c d
    cases ys with
    | nil => simp at h
    | cons y ys =>
      simp only [List.zipWith_cons_cons, List.foldl_cons]
      have e : crcByteStep (c ^^^ d) (Nat.xor x y) = crcByteStep c x ^^^ crcByteStep d y :=
        crcByteStep_xor c d x y
      rw [e]
      exact ih ys (by simpa using h) _ _

theorem foldl_crc_replicate_zero (m : Nat) :
    (List.replicate m 0).foldl crcByteStep 0 = 0 := by
  induction m with
  | zero => rfl
  | succ m ih =>
    rw [List.replicate_succ, List.foldl_cons]
    have h : crcByteStep 0 0 = 0 := by
      unfold crcByteStep
      rw [Nat.xor_zero]
      exact Function.iterate_fixed crcShift_zero 8
    rw [h]
    exact ih

theorem foldl_crc_replicate_zero_ne (m : Nat) :
    ∀ {c : Nat}, c ≠ 0 → c < 2 ^ 16 → (List.replicate m 0).foldl crcByteStep c ≠ 0 := by
  induction m with
  | zero => intro c h0 _; exact h0
  | succ m ih =>
    intro c h0 hc
    rw [List.replicate_succ, List.foldl_cons]
    exact ih (crcByteStep_zero_right_ne h0 hc) (crcByteStep_lt hc (by norm_num))

theorem replicate_zero_set (n i v : Nat) (h : i < n) :
    (List.replicate n 0).set i v =
      List.replicate i 0 ++ v :: List.replicate (n - i - 1) (0 : Nat) := by
  induction i generalizing n with
  | zero =>
    cases n with
    | zero => omega
    | succ m => simp [List.replicate_succ]
  | succ i ih =>
    cases n with
    | zero => omega
    | succ m =>
      have e : m + 1 - (i + 1) - 1 = m - i - 1 := by omega
      rw [List.replicate_succ, List.set_cons_succ, ih m (by omega), e,
        List.replicate_succ (0 : Nat) i, List.cons_append]

theorem crc16_single_ne_zero {n i v : Nat} (hi : i < n) (hv0 : v ≠ 0) (hv : v < 2 ^ 16) :
    crc16 ((List.replicate n 0).set i v) ≠ 0 := by
  rw [replicate_zero_set n i v hi]
  unfold crc16
  rw [List.foldl_append, foldl_crc_replicate_zero, List.foldl_cons]
  have h1 : crcByteStep 0 v ≠ 0 := by
    unfold crcByteStep
    rw [Nat.zero_xor]
    exact crcShiftIter_ne_zero _ hv0 hv
  have h2 : crcByteStep 0 v < 2 ^ 16 := crcByteStep_lt (by norm_num) hv
  exact foldl_crc_replicate_zero_ne _ h1 h2

theorem zipWith_xor_replicate_zero (xs : List Nat) :
    List.zipWith Nat.xor xs (List.replicate xs.length 0) = xs := by
  induction xs with
  | nil => rfl
  | cons x xs ih =>
    rw [List.length_cons, List.replicate_succ, List.zipWith_cons_cons, ih]
    exact congrArg (fun t => t :: xs) (Nat.xor_zero x)

theorem zipWith_xor_single (xs : List Nat) (i v : Nat) (h : i < xs.length) :
    List.zipWith Nat.xor xs ((List.replicate xs.length 0).set i v) =
      xs.set i (xs.getD i 0 ^^^ v) := by
  induction xs generalizing i with
  | nil => simp at h
  | cons x xs ih =>
    cases i with
    | zero =>
      rw [List.length_cons, List.replicate_succ, List.set_cons_zero,
        List.zipWith_cons_cons, zipWith_xor_replicate_zero, List.getD_cons_zero,
        List.set_cons_zero]
      rfl
    | succ i =>
      rw [List.length_cons, List.replicate_succ, List.set_cons_succ,
        List.zipWith_cons_cons, List.getD_cons_succ, List.set_cons_succ,
        ih i (by simpa using h)]
      exact congrArg (fun t => t :: xs.set i (xs.getD i 0 ^^^ v)) (Nat.xor_zero x)

theorem crc16_set_ne (xs : List Nat) (i v : Nat) (hi : i < xs.length) (hv0 : v ≠ 0)
    (hv : v < 2 ^ 16) : crc16 (xs.set i (xs.getD i 0 ^^^ v)) ≠ crc16 xs := by
  rw [← zipWith_xor_single xs i v hi]
  intro heq
  have hlen : xs.length = ((List.replicate xs.length 0).set i v).length := by simp
  have hf := foldl_crc_zipWith_xor xs _ hlen 0 0
  simp only [Nat.xor_self] at hf
  unfold crc16 at heq
  rw [hf] at heq
  have hz : ((List.replicate xs.length 0).set i v).foldl crcByteStep 0 = 0 :=
    calc ((List.replicate xs.length 0).set i v).foldl crcByteStep 0
        = xs.foldl crcByteStep 0 ^^^
            (xs.foldl crcByteStep 0 ^^^
              ((List.replicate xs.length 0).set i v).foldl crcByteStep 0) :=
          (Nat.xor_cancel_left _ _).symm
      _ = xs.foldl crcByteStep 0 ^^^ xs.foldl crcByteStep 0 := by rw [heq]
      _ = 0 := Nat.xor_self _
  exact absurd hz (crc16_single_ne_zero hi hv0 hv)

/-! ## Frame-shape lemmas for decode_packet -/

theorem pySlice_zero_four (data : List Nat) : pySlice data 0 4 = data.take 4 := by
  unfold pySlice
  rw [List.drop_zero]

theorem head?_of_zero_preamble {data : List Nat} (h : pySlice data 0 4 = [0, 0, 0, 0]) :
    data.head? = some 0 := by
  rw [pySlice_zero_four] at h
  have h2 := congrArg List.head? h
  rw [List.head?_take, if_neg (by decide : ¬(4 = 0))] at h2
  exact h2

theorem length_of_zero_preamble {data : List Nat} (h : pySlice data 0 4 = [0, 0, 0, 0]) :
    4 ≤ data.length := by
  have h2 := congrArg List.length h
  unfold pySlice at h2
  rw [List.length_take, List.length_drop] at h2
  simp at h2
  omega

theorem decode_packet_eq_binary (jload : List Nat → PyJson) {data : List Nat}
    (h : data.head? ≠ some 0x7B) : decode_packet jload data = decodeBinary data := by
  unfold decode_packet
  rw [if_neg]
  intro hc
  exact h hc.1

theorem unpackU32_pySlice_4_8 {data : List Nat} (h : 8 ≤ data.length) :
    unpackU32 (pySlice data 4 8) = some (beVal (pySlice data 4 8)) := by
  unfold unpackU32
  rw [if_pos]
  unfold pySlice
  rw [List.length_take, List.length_drop]
  omega

theorem unpackU32_preamble {data : List Nat} (h : pySlice data 0 4 = [0, 0, 0, 0]) :
    unpackU32 (pySlice data 0 4) = some 0 := by
  rw [h]
  rfl

theorem unpackU32_trailer {data : List Nat} {L : Nat} (h : data.length = 8 + L + 4) :
    unpackU32 (data.drop (8 + L)) = some (beVal (data.drop (8 + L))) := by
  unfold unpackU32
  rw [if_pos]
  rw [List.length_drop, h]
  omega

/-- Inputs shorter than 8 bytes fail the header unpack and surface as the
parsing-error variant. -/
theorem decodeBinary_short {data : List Nat} (h : data.length < 8) :
    decodeBinary data = .parsingError "unpack requires a buffer of 4 bytes" (hexlify data) := by
  have h2 : unpackU32 (pySlice data 4 8) = none := by
    unfold unpackU32 pySlice
    rw [if_neg]
    rw [List.length_take, List.length_drop]
    omega
  unfold decodeBinary
  rcases h4 : unpackU32 (pySlice data 0 4) with _ | p <;> rw [h2]

/-- With a zero preamble and a declared length L, any buffer whose tail
after the CRC data is not exactly 4 bytes (truncated or with trailing
garbage) fails the trailer unpack and surfaces as the parsing-error
variant. -/
theorem decodeBinary_bad_trailer {data : List Nat} {L : Nat}
    (h1 : pySlice data 0 4 = [0, 0, 0, 0])
    (h2 : unpackU32 (pySlice data 4 8) = some L)
    (h3 : (data.drop (8 + L)).length ≠ 4) :
    decodeBinary data = .parsingError "unpack requires a buffer of 4 bytes" (hexlify data) := by
  have hd : unpackU32 (data.drop (8 + L)) = none := by
    unfold unpackU32
    rw [if_neg h3]
  unfold decodeBinary
  rw [unpackU32_preamble h1, h2]
  dsimp only
  rw [if_neg (by decide : ¬(0 : Nat) ≠ 0), hd]

/-- With a well-formed header whose expected CRC disagrees with the
computed one, decodeBinary reports the corrupt variant carrying both. -/
theorem decodeBinary_corrupt {data : List Nat} {L : Nat}
    (h1 : pySlice data 0 4 = [0, 0, 0, 0])
    (h2 : unpackU32 (pySlice data 4 8) = some L)
    (h3 : data.length = 8 + L + 4)
    (hne : beVal (data.drop (8 + L)) ≠ crc16 (pySlice data 8 (8 + L))) :
    decodeBinary data =
      .corrupt (beVal (data.drop (8 + L))) (crc16 (pySlice data 8 (8 + L))) := by
  unfold decodeBinary
  rw [unpackU32_preamble h1, h2]
  dsimp only
  rw [if_neg (by decide : ¬(0 : Nat) ≠ 0), unpackU32_trailer h3]
  dsimp only
  rw [if_pos hne]

/-- With a well-formed header and matching CRC, decodeBinary dispatches on
the first CRC-data byte. -/
theorem decodeBinary_dispatch {data : List Nat} {L c0 : Nat} {cs : List Nat}
    (h1 : pySlice data 0 4 = [0, 0, 0, 0])
    (h2 : unpackU32 (pySlice data 4 8) = some L)
    (h3 : data.length = 8 + L + 4)
    (hcd : pySlice data 8 (8 + L) = c0 :: cs)
    (hcrc : beVal (data.drop (8 + L)) = crc16 (c0 :: cs)) :
    decodeBinary data =
      (if c0 = 0x08 ∨ c0 = 0x8E then
        match decode_codec8 (c0 :: cs) with
        | some p => .avl p
        | none => .parsingError "struct.error" (hexlify data)
      else if c0 = 0x0C then .codec12Response (pySliceToLast (c0 :: cs) 5)
      else if c0 = 0x11 then .codec17Response
      else .unknownCodec c0 (hexlify (c0 :: cs))) := by
  unfold decodeBinary
  rw [unpackU32_preamble h1, h2]
  dsimp only
  rw [if_neg (by decide : ¬(0 : Nat) ≠ 0), unpackU32_trailer h3, hcd]
  dsimp only
  rw [if_neg (by rw [hcrc]; exact fun hne => hne rfl)]

/-! ## Packing lemmas -/

theorem beVal_packU32 {m : Nat} (h : m < 2 ^ 32) : beVal (packU32 m) = m := by
  unfold beVal packU32
  simp only [List.foldl_cons, List.foldl_nil]
  norm_num
  omega

theorem unpackU32_packU32 {m : Nat} (h : m < 2 ^ 32) : unpackU32 (packU32 m) = some m := by
  unfold unpackU32
  rw [if_pos (show (packU32 m).length = 4 from rfl), beVal_packU32 h]

/-! ## Claim C1 (counterexample part) -/

/-- C1: counterexample.  The claim states that the trailing 4-byte CRC of
encode_codec12_command equals crc16 of the whole CRC-covered region, bytes
[8:-4] of the output.  On the command "getinfo" the embedded CRC differs
from crc16 of that region: the code computes the CRC over the region with
its first three bytes skipped. -/
theorem c1_counterexample :
    beVal ((encode_codec12_command "getinfo").drop
        ((encode_codec12_command "getinfo").length - 4)) ≠
      crc16 (pySlice (encode_codec12_command "getinfo") 8
        ((encode_codec12_command "getinfo").length - 4)) := by decide

/-- C1: amended claim.  For every command string, encode_codec12_command
emits exactly: 4 zero preamble bytes, the 4-byte big-endian length of the
CRC-covered region, the region [codec 0x0C, count 0x01, sub-command 0x05,
4-byte big-endian length of the UTF-8 command bytes, the command bytes,
trailing 0x01], and then as the trailing 4 bytes the big-endian crc16 of
the region WITH ITS FIRST THREE BYTES SKIPPED, i.e. of bytes [11:-4] of
the output, not of the entire region.  (The size bound keeps the 4-byte
length fields below 2^32, where Python struct.pack would raise.) -/
theorem c1_encode_layout (command : String)
    (hlen : (utf8Bytes command).length < 2 ^ 30) :
    (encode_codec12_command command).length = 20 + (utf8Bytes command).length ∧
    pySlice (encode_codec12_command command) 0 4 = [0, 0, 0, 0] ∧
    unpackU32 (pySlice (encode_codec12_command command) 4 8) =
      some (8 + (utf8Bytes command).length) ∧
    pySlice (encode_codec12_command command) 8
        ((encode_codec12_command command).length - 4) =
      0x0C :: 0x01 :: 0x05 ::
        (packU32 (utf8Bytes command).length ++ utf8Bytes command ++ [0x01]) ∧
    (encode_codec12_command command).drop ((encode_codec12_command command).length - 4) =
      packU32 (crc16 (packU32 (utf8Bytes command).length ++ utf8Bytes command ++ [0x01])) ∧
    pySlice (encode_codec12_command command) 11
        ((encode_codec12_command command).length - 4) =
      packU32 (utf8Bytes command).length ++ utf8Bytes command ++ [0x01] := by
  have hreg : (0x0C :: 0x01 :: 0x05 ::
      (packU32 (utf8Bytes command).length ++ utf8Bytes command ++ [0x01])).length =
      8 + (utf8Bytes command).length := by
    simp [packU32, List.length_append]
    omega
  have hout : encode_codec12_command command =
      ([0, 0, 0, 0] ++ packU32 (8 + (utf8Bytes command).length)) ++
        (0x0C :: 0x01 :: 0x05 ::
          (packU32 (utf8Bytes command).length ++ utf8Bytes command ++ [0x01])) ++
        packU32 (crc16 (packU32 (utf8Bytes command).length ++ utf8Bytes command ++ [0x01])) := by
    simp only [encode_codec12_command]
    rw [hreg]
    rfl
  have hA : (([0, 0, 0, 0] ++ packU32 (8 + (utf8Bytes command).length)) : List Nat).length = 8 := by
    simp [packU32, List.length_append]
  have houtlen : (encode_codec12_command command).length = 20 + (utf8Bytes command).length := by
    rw [hout]
    simp only [List.length_append, hA, hreg]
    simp [packU32]
    omega
  have hAR : (([0, 0, 0, 0] ++ packU32 (8 + (utf8Bytes command).length)) ++
      (0x0C :: 0x01 :: 0x05 ::
        (packU32 (utf8Bytes command).length ++ utf8Bytes command ++ [0x01]))).length =
      16 + (utf8Bytes command).length := by
    rw [List.length_append, hA, hreg]
    omega
  have htlen : (packU32 (utf8Bytes command).length ++ utf8Bytes command ++ [0x01]).length =
      5 + (utf8Bytes command).length := by
    simp [packU32, List.length_append]
    omega
  have hdrop8 : (encode_codec12_command command).drop 8 =
      (0x0C :: 0x01 :: 0x05 ::
        (packU32 (utf8Bytes command).length ++ utf8Bytes command ++ [0x01])) ++
      packU32 (crc16 (packU32 (utf8Bytes command).length ++ utf8Bytes command ++ [0x01])) := by
    rw [hout, List.drop_append_of_le_length (by rw [List.length_append, hA]; omega),
      List.drop_append_of_le_length (by rw [hA]),
      show (([0, 0, 0, 0] ++ packU32 (8 + (utf8Bytes command).length)) : List Nat).drop 8
        = [] from rfl,
      List.nil_append]
  refine ⟨houtlen, ?_, ?_, ?_, ?_, ?_⟩
  · rw [hout]
    rfl
  · have h32 : 8 + (utf8Bytes command).length < 2 ^ 32 := by
      have e : (2 : Nat) ^ 30 < 2 ^ 32 := by norm_num
      omega
    rw [hout]
    show unpackU32 (packU32 (8 + (utf8Bytes command).length)) = _
    exact unpackU32_packU32 h32
  · unfold pySlice
    rw [houtlen, hdrop8,
      show 20 + (utf8Bytes command).length - 4 - 8 = 8 + (utf8Bytes command).length from by omega,
      List.take_append_of_le_length (le_of_eq hreg.symm), ← hreg, List.take_length]
  · rw [houtlen, hout,
      show 20 + (utf8Bytes command).length - 4 = 16 + (utf8Bytes command).length from by omega,
      List.drop_append_of_le_length (le_of_eq hAR.symm), ← hAR, List.drop_length,
      List.nil_append]
  · unfold pySlice
    rw [houtlen,
      show 20 + (utf8Bytes command).length - 4 - 11 = 5 + (utf8Bytes command).length from by
        omega,
      show (encode_codec12_command command).drop 11 =
        (packU32 (utf8Bytes command).length ++ utf8Bytes command ++ [0x01]) ++
          packU32 (crc16 (packU32 (utf8Bytes command).length ++ utf8Bytes command ++ [0x01]))
        from by
          rw [hout, List.drop_append_of_le_length (by rw [hAR]; omega),
            show ((([0, 0, 0, 0] ++ packU32 (8 + (utf8Bytes command).length)) ++
              (0x0C :: 0x01 :: 0x05 ::
                (packU32 (utf8Bytes command).length ++ utf8Bytes command ++ [0x01]))) :
              List Nat).drop 11 =
              packU32 (utf8Bytes command).length ++ utf8Bytes command ++ [0x01] from rfl],
      List.take_append_of_le_length (le_of_eq htlen.symm), ← htlen, List.take_length]

/-- C1 witness: the amended layout at the command "getinfo". -/
theorem c1_encode_layout_witness :
    (utf8Bytes "getinfo").length < 2 ^ 30 ∧
    ((encode_codec12_command "getinfo").length = 20 + (utf8Bytes "getinfo").length ∧
      pySlice (encode_codec12_command "getinfo") 0 4 = [0, 0, 0, 0] ∧
      unpackU32 (pySlice (encode_codec12_command "getinfo") 4 8) =
        some (8 + (utf8Bytes "getinfo").length) ∧
      pySlice (encode_codec12_command "getinfo") 8
          ((encode_codec12_command "getinfo").length - 4) =
        0x0C :: 0x01 :: 0x05 ::
          (packU32 (utf8Bytes "getinfo").length ++ utf8Bytes "getinfo" ++ [0x01]) ∧
      (encode_codec12_command "getinfo").drop
          ((encode_codec12_command "getinfo").length - 4) =
        packU32 (crc16
          (packU32 (utf8Bytes "getinfo").length ++ utf8Bytes "getinfo" ++ [0x01])) ∧
      pySlice (encode_codec12_command "getinfo") 11
          ((encode_codec12_command "getinfo").length - 4) =
        packU32 (utf8Bytes "getinfo").length ++ utf8Bytes "getinfo" ++ [0x01]) :=
  ⟨by decide, c1_encode_layout "getinfo" (by decide)⟩

/-- C2: code bug demonstration.  On the stream transport, an identified
session that receives the well-formed Codec 8 frame avlFrame (declared
record count 3) emits the telemetry event and sends exactly the 4 bytes
00 00 00 03, the big-endian declared record count.  On the datagram
transport the same frame from an identified address emits the telemetry
event but sends nothing: the acknowledgment line calls struct.pack while
server/udp_server.py never imports struct, so the iteration dies with a
NameError that the loop logs as an error. -/
theorem c2_avl_ack :
    tcp_handle_data jsonNever imeiDigits avlFrame =
      [Event.dataReceived imeiDigits avlFrame
        (DecodedPacket.avl { ptype := "Codec 8", record_count := 3, records := [zeroRecord] }),
        Event.send [0, 0, 0, 3]] ∧
    (udp_step jsonNever udpKnown 0 avlFrame).clients 0 = some imeiDigits ∧
    (udp_step jsonNever udpKnown 0 avlFrame).events =
      [Event.dataReceived imeiDigits avlFrame
        (DecodedPacket.avl { ptype := "Codec 8", record_count := 3, records := [zeroRecord] }),
        Event.logError] := by
  refine ⟨by decide, by decide, by decide⟩

/-! ## Claim C3 -/

/-- C3: code bug demonstration.  A 17-byte identity frame (0x00 0x0F plus
15 ASCII digits) is accepted on the stream transport: the registry maps
the digits to the handler, the connected event fires, the handler records
its imei, and the single byte 0x01 is sent.  On the datagram transport the
identity branch requires strictly more than 17 bytes, so the very same
frame is treated as a data packet: no mapping, no 0x01, only a telemetry
event under the synthesized placeholder label (the frame decodes to the
invalid-preamble variant).  An 18-byte datagram with the same prefix is
accepted, confirming the off-by-one. -/
theorem c3_identity_frame :
    (tcp_handle_first worldEmpty 5 idFrame17).registry imeiDigits = some 5 ∧
    (tcp_handle_first worldEmpty 5 idFrame17).events =
      [Event.connected imeiDigits, Event.send [0x01]] ∧
    ((tcp_handle_first worldEmpty 5 idFrame17).store 5).imei = some imeiDigits ∧
    (udp_step jsonNever udpEmpty 0 idFrame17).clients 0 = none ∧
    (udp_step jsonNever udpEmpty 0 idFrame17).events =
      [Event.dataReceived (udpPlaceholder 0) idFrame17 DecodedPacket.invalidPreamble] ∧
    (udp_step jsonNever udpEmpty 0 (idFrame17 ++ [0])).clients 0 = some imeiDigits ∧
    (udp_step jsonNever udpEmpty 0 (idFrame17 ++ [0])).events =
      [Event.connected imeiDigits, Event.sendto 0 [0x01]] := by
  refine ⟨by decide, by decide, by decide, by decide, by decide, by decide, by decide⟩

/-! ## Claim C4 -/

theorem foldl_register_getLast (imei : List Nat) (ss : List Nat) :
    ∀ (w : World), ss ≠ [] →
      (ss.foldl (fun acc s => register_client acc imei s) w).registry imei = ss.getLast? := by
  induction ss with
  | nil => intro w h; exact absurd rfl h
  | cons s ss ih =>
    intro w _
    cases ss with
    | nil =>
      simp [register_client]
    | cons s2 ss2 =>
      rw [List.foldl_cons, ih (register_client w imei s) (by simp),
        List.getLast?_cons_cons]

/-- C4: Registry unregister removes the mapping exactly when the stored
reference is the caller, and fires the disconnected event exactly on
removal; register inserts or overwrites unconditionally.  Consequently,
after a run of register calls for one identifier followed by a single
unregister naming a reference that is not the last writer, the map still
holds the last-registered reference and the unregister is a complete
no-op (no disconnected event). -/
theorem c4_registry :
    (∀ (w : World) (imei : List Nat) (h : Nat),
      (w.registry imei = some h →
        (unregister_client w imei h).registry imei = none ∧
        (unregister_client w imei h).events = w.events ++ [Event.disconnected imei]) ∧
      (w.registry imei ≠ some h → unregister_client w imei h = w)) ∧
    (∀ (w : World) (imei : List Nat) (h : Nat),
      (register_client w imei h).registry imei = some h) ∧
    (∀ (w : World) (imei : List Nat) (ss : List Nat) (k : Nat),
      ss ≠ [] → ss.getLast? ≠ some k →
      (ss.foldl (fun acc s => register_client acc imei s) w).registry imei = ss.getLast? ∧
      unregister_client (ss.foldl (fun acc s => register_client acc imei s) w) imei k =
        ss.foldl (fun acc s => register_client acc imei s) w) := by
  refine ⟨?_, ?_, ?_⟩
  · intro w imei h
    constructor
    · intro hw
      rw [unregister_client, if_pos hw]
      exact ⟨by simp, rfl⟩
    · intro hw
      rw [unregister_client, if_neg hw]
  · intro w imei h
    simp [register_client]
  · intro w imei ss k hne hk
    have hreg := foldl_register_getLast imei ss w hne
    refine ⟨hreg, ?_⟩
    rw [unregister_client, if_neg]
    rw [hreg]
    exact fun hc => hk hc

/-- C4 witness: the three parts of c4_registry at concrete inputs.  After
register("X", 4) then register("X", 5), unregister("X", 4) is a no-op and
the map still holds 5; a matching unregister removes the entry and fires
exactly one disconnected event. -/
theorem c4_registry_witness :
    (worldOne.registry imeiDigits = some 3 ∧
      (unregister_client worldOne imeiDigits 3).registry imeiDigits = none ∧
      (unregister_client worldOne imeiDigits 3).events =
        worldOne.events ++ [Event.disconnected imeiDigits]) ∧
    (register_client worldEmpty imeiDigits 7).registry imeiDigits = some 7 ∧
    (([4, 5] : List Nat) ≠ [] ∧ ([4, 5] : List Nat).getLast? ≠ some 4 ∧
      (([4, 5] : List Nat).foldl (fun acc s => register_client acc imeiDigits s)
          worldEmpty).registry imeiDigits = ([4, 5] : List Nat).getLast? ∧
      unregister_client (([4, 5] : List Nat).foldl
          (fun acc s => register_client acc imeiDigits s) worldEmpty) imeiDigits 4 =
        ([4, 5] : List Nat).foldl (fun acc s => register_client acc imeiDigits s) worldEmpty) :=
  ⟨⟨by decide, ((c4_registry.1 worldOne imeiDigits 3).1 (by decide)).1,
      ((c4_registry.1 worldOne imeiDigits 3).1 (by decide)).2⟩,
    c4_registry.2.1 worldEmpty imeiDigits 7,
    by decide, by decide,
    (c4_registry.2.2 worldEmpty imeiDigits [4, 5] 4 (by decide) (by decide)).1,
    (c4_registry.2.2 worldEmpty imeiDigits [4, 5] 4 (by decide) (by decide)).2⟩

/-! ## Claim C9 -/

/-- C9: kick on a registered identifier stops that running session: it
logs, fires exactly one disconnected event (appending precisely the event
suffix below), clears the running flag, removes the registry entry, and
shuts down and closes the transport; a second stop of the same handler
(the read-loop exit path) is then a strict no-op, so only one disconnected
event ever results.  Kick on an unknown identifier only logs an error:
no disconnected event, no session touched. -/
theorem c9_kick :
    (∀ (w : World) (imei : List Nat) (r : Nat),
      w.registry imei = some r →
      (w.store r).is_running = true →
      (w.store r).imei = some imei →
      (kick_device w imei).events =
        w.events ++ [Event.logWarn, Event.disconnected imei, Event.logInfo,
          Event.shutdown r, Event.close r] ∧
      ((kick_device w imei).store r).is_running = false ∧
      (kick_device w imei).registry imei = none ∧
      handlerStop (kick_device w imei) r = kick_device w imei) ∧
    (∀ (w : World) (imei : List Nat),
      w.registry imei = none →
      kick_device w imei = { w with events := w.events ++ [Event.logError] }) := by
  constructor
  · intro w imei r h1 h2 h3
    have hkick : kick_device w imei =
        handlerStop { w with events := w.events ++ [Event.logWarn] } r := by
      rw [kick_device, h1]
    have hstop : handlerStop { w with events := w.events ++ [Event.logWarn] } r =
        { registry := fun x => if x = imei then none else w.registry x
          store := fun x => if x = r then { w.store r with is_running := false } else w.store x
          events := w.events ++ [Event.logWarn, Event.disconnected imei, Event.logInfo,
            Event.shutdown r, Event.close r] } := by
      rw [handlerStop]
      rw [if_neg (by rw [h2]; simp)]
      rw [h3]
      dsimp only
      rw [unregister_client, if_pos h1]
      dsimp only
      simp [h3]
    rw [hkick, hstop]
    refine ⟨rfl, by simp, by simp, ?_⟩
    rw [handlerStop]
    rw [if_pos (by simp)]
  · intro w imei h
    rw [kick_device, h]

/-- C9 witness: c9_kick at the one-handler world and at the empty world. -/
theorem c9_kick_witness :
    (worldOne.registry imeiDigits = some 3 ∧
      (worldOne.store 3).is_running = true ∧
      (worldOne.store 3).imei = some imeiDigits ∧
      (kick_device worldOne imeiDigits).events =
        worldOne.events ++ [Event.logWarn, Event.disconnected imeiDigits, Event.logInfo,
          Event.shutdown 3, Event.close 3] ∧
      ((kick_device worldOne imeiDigits).store 3).is_running = false ∧
      (kick_device worldOne imeiDigits).registry imeiDigits = none ∧
      handlerStop (kick_device worldOne imeiDigits) 3 = kick_device worldOne imeiDigits) ∧
    (worldEmpty.registry imeiDigits = none ∧
      kick_device worldEmpty imeiDigits =
        { worldEmpty with events := worldEmpty.events ++ [Event.logError] }) :=
  ⟨⟨by decide, by decide, by decide,
      (c9_kick.1 worldOne imeiDigits 3 (by decide) (by decide) (by decide)).1,
      (c9_kick.1 worldOne imeiDigits 3 (by decide) (by decide) (by decide)).2.1,
      (c9_kick.1 worldOne imeiDigits 3 (by decide) (by decide) (by decide)).2.2.1,
      (c9_kick.1 worldOne imeiDigits 3 (by decide) (by decide) (by decide)).2.2.2⟩,
    ⟨by decide, c9_kick.2 worldEmpty imeiDigits (by decide)⟩⟩

/-! ## Claim C5 (counterexample part) -/

/-- C5: counterexample.  The claim states that every truncated buffer
(fewer than 8 bytes, or shorter than 8 + L + 4 for the declared length L)
decodes to the parsing-error variant.  The 8-byte buffer with a nonzero
preamble below is truncated in that sense (it declares L = 0 and is
shorter than 12 bytes) yet decodes to the invalid-preamble variant, not to
a parsing error: the preamble check precedes the trailer read. -/
theorem c5_counterexample :
    decode_packet jsonNever [1, 0, 0, 0, 0, 0, 0, 0] = DecodedPacket.invalidPreamble ∧
    ([1, 0, 0, 0, 0, 0, 0, 0] : List Nat).length <
      8 + beVal (pySlice [1, 0, 0, 0, 0, 0, 0, 0] 4 8) + 4 ∧
    hasParsingErrorRaw (decode_packet jsonNever [1, 0, 0, 0, 0, 0, 0, 0])
      (hexlify [1, 0, 0, 0, 0, 0, 0, 0]) = false := by
  refine ⟨by decide, by decide, by decide⟩

/-! ## Claim C8 (counterexample part) -/

/-- C8: counterexample.  codec17Frame is well formed (zero preamble,
declared length 1, matching CRC) and its codec byte 0x11 is none of 0x08,
0x8E, 0x0C; the claim therefore requires the unknown variant carrying the
hexlified CRC data, but decode_packet returns the dedicated Codec 17
placeholder variant instead. -/
theorem c8_counterexample :
    pySlice codec17Frame 0 4 = [0, 0, 0, 0] ∧
    codec17Frame.length = 8 + 1 + 4 ∧
    beVal (codec17Frame.drop 9) = crc16 [0x11] ∧
    decode_packet jsonNever codec17Frame = DecodedPacket.codec17Response ∧
    decode_packet jsonNever codec17Frame ≠ DecodedPacket.unknownCodec 0x11 (hexlify [0x11]) := by
  refine ⟨by decide, by decide, by decide, by decide, by decide⟩

/-! ## Claim C5 (amended part) -/

/-- C5: amended claim.  decode_packet is a total function of its input
(every Python exception is modelled as a returned parsing-error dict, so
nothing escapes the boundary).  Every truncated buffer — fewer than 8
bytes, or carrying the zero 4-byte preamble but shorter than 8 + L + 4 for
the declared length L — decodes to the parsing-error variant carrying a
message and the original input hex-encoded, PROVIDED the JSON fast path
does not return it first.  (A buffer of at least 8 bytes with a NONZERO
preamble instead yields the invalid-preamble variant before any length
check: see the counterexample.) -/
theorem c5_truncated_parsing_error (jload : List Nat → PyJson) (data : List Nat)
    (hnj : ¬((data.head? = some 0x7B ∧ data.getLast? = some 0x7D) ∧ jload data = PyJson.ok))
    (htr : data.length < 8 ∨
      (pySlice data 0 4 = [0, 0, 0, 0] ∧
        data.length < 8 + beVal (pySlice data 4 8) + 4)) :
    hasParsingErrorRaw (decode_packet jload data) (hexlify data) = true := by
  have hbin : hasParsingErrorRaw (decodeBinary data) (hexlify data) = true := by
    rcases htr with h | ⟨hz, hlt⟩
    · rw [decodeBinary_short h]
      simp [hasParsingErrorRaw]
    · by_cases h8 : data.length < 8
      · rw [decodeBinary_short h8]
        simp [hasParsingErrorRaw]
      · have h2 := @unpackU32_pySlice_4_8 data (by omega)
        rw [decodeBinary_bad_trailer hz h2 (by rw [List.length_drop]; omega)]
        simp [hasParsingErrorRaw]
  by_cases hs : data.head? = some 0x7B ∧ data.getLast? = some 0x7D
  · rw [decode_packet, if_pos hs]
    rcases hj : jload data with _ | _ | msg
    · exact absurd ⟨hs, hj⟩ hnj
    · exact hbin
    · simp [hasParsingErrorRaw]
  · rw [decode_packet, if_neg hs]
    exact hbin

/-- C5 witness: a 5-byte truncated buffer decodes to a parsing error
carrying its hex. -/
theorem c5_truncated_witness :
    (¬((([0, 0, 0, 0, 0] : List Nat).head? = some 0x7B ∧
          ([0, 0, 0, 0, 0] : List Nat).getLast? = some 0x7D) ∧
        jsonNever [0, 0, 0, 0, 0] = PyJson.ok)) ∧
    (([0, 0, 0, 0, 0] : List Nat).length < 8 ∨
      (pySlice [0, 0, 0, 0, 0] 0 4 = [0, 0, 0, 0] ∧
        ([0, 0, 0, 0, 0] : List Nat).length <
          8 + beVal (pySlice [0, 0, 0, 0, 0] 4 8) + 4)) ∧
    hasParsingErrorRaw (decode_packet jsonNever [0, 0, 0, 0, 0])
      (hexlify [0, 0, 0, 0, 0]) = true :=
  ⟨by decide, by decide,
    c5_truncated_parsing_error jsonNever [0, 0, 0, 0, 0] (by decide) (by decide)⟩

/-! ## Claim C8 (amended part) -/

/-- C8: amended claim.  For every well-formed frame (zero preamble,
consistent length and CRC) whose codec byte is none of 0x08, 0x8E, 0x0C,
AND ALSO NOT 0x11, decode_packet returns the unknown-codec variant
carrying the hex-encoded CRC data.  (Codec byte 0x11 instead returns the
dedicated Codec 17 placeholder variant: see the counterexample.) -/
theorem c8_unknown_codec (jload : List Nat → PyJson) (data : List Nat) (L c0 : Nat)
    (cs : List Nat)
    (h1 : pySlice data 0 4 = [0, 0, 0, 0])
    (h2 : unpackU32 (pySlice data 4 8) = some L)
    (h3 : data.length = 8 + L + 4)
    (hcd : pySlice data 8 (8 + L) = c0 :: cs)
    (hcrc : beVal (data.drop (8 + L)) = crc16 (c0 :: cs))
    (hc8 : c0 ≠ 0x08) (hc8e : c0 ≠ 0x8E) (hc12 : c0 ≠ 0x0C) (hc17 : c0 ≠ 0x11) :
    decode_packet jload data = DecodedPacket.unknownCodec c0 (hexlify (c0 :: cs)) := by
  rw [decode_packet_eq_binary jload (by rw [head?_of_zero_preamble h1]; decide),
    decodeBinary_dispatch h1 h2 h3 hcd hcrc,
    if_neg (fun hc => hc.elim hc8 hc8e), if_neg hc12, if_neg hc17]

/-- C8 witness: the well-formed codec-0x05 frame decodes to the
unknown-codec variant with its hexlified CRC data. -/
theorem c8_unknown_codec_witness :
    pySlice codec5Frame 0 4 = [0, 0, 0, 0] ∧
    unpackU32 (pySlice codec5Frame 4 8) = some 1 ∧
    codec5Frame.length = 8 + 1 + 4 ∧
    pySlice codec5Frame 8 9 = [0x05] ∧
    beVal (codec5Frame.drop 9) = crc16 [0x05] ∧
    decode_packet jsonNever codec5Frame = DecodedPacket.unknownCodec 0x05 (hexlify [0x05]) :=
  ⟨by decide, by decide, by decide, by decide, by decide,
    c8_unknown_codec jsonNever codec5Frame 1 0x05 [] (by decide) (by decide) (by decide)
      (by decide) (by decide) (by decide) (by decide) (by decide) (by decide)⟩

/-! ## Claim C10 -/

/-- C10: trailing bytes after the 4-byte CRC are not tolerated.  For every
buffer with zero preamble and declared length L, a total length strictly
greater than 8 + L + 4 yields the parsing-error variant with the input
hex-encoded (the fixed-width trailer unpack sees more than 4 bytes), and
conversely every successful decode — AVL, command echo, corrupt, or
unknown codec — forces the length to be exactly 8 + L + 4. -/
theorem c10_exact_length (jload : List Nat → PyJson) (data : List Nat) (L : Nat)
    (h1 : pySlice data 0 4 = [0, 0, 0, 0])
    (h2 : unpackU32 (pySlice data 4 8) = some L) :
    (8 + L + 4 < data.length →
      decode_packet jload data =
        DecodedPacket.parsingError "unpack requires a buffer of 4 bytes" (hexlify data)) ∧
    (∀ p, decode_packet jload data = DecodedPacket.avl p → data.length = 8 + L + 4) ∧
    (∀ bs, decode_packet jload data = DecodedPacket.codec12Response bs →
      data.length = 8 + L + 4) ∧
    (∀ a b, decode_packet jload data = DecodedPacket.corrupt a b →
      data.length = 8 + L + 4) ∧
    (∀ c hx, decode_packet jload data = DecodedPacket.unknownCodec c hx →
      data.length = 8 + L + 4) := by
  have hjson := decode_packet_eq_binary jload
    (by rw [head?_of_zero_preamble h1]; decide)
  by_cases hexact : data.length = 8 + L + 4
  · exact ⟨fun hgt => absurd hexact (by omega), fun _ _ => hexact, fun _ _ => hexact,
      fun _ _ _ => hexact, fun _ _ _ => hexact⟩
  · have hbad : decodeBinary data =
        DecodedPacket.parsingError "unpack requires a buffer of 4 bytes" (hexlify data) :=
      decodeBinary_bad_trailer h1 h2 (by rw [List.length_drop]; omega)
    refine ⟨fun _ => by rw [hjson, hbad], ?_, ?_, ?_, ?_⟩
    · intro p heq
      rw [hjson, hbad] at heq
      exact DecodedPacket.noConfusion heq
    · intro bs heq
      rw [hjson, hbad] at heq
      exact DecodedPacket.noConfusion heq
    · intro a b heq
      rw [hjson, hbad] at heq
      exact DecodedPacket.noConfusion heq
    · intro c hx heq
      rw [hjson, hbad] at heq
      exact DecodedPacket.noConfusion heq

/-- C10 witness: a frame with declared length 0 and five trailing bytes
after the header yields the parsing-error variant. -/
theorem c10_exact_length_witness :
    pySlice [0, 0, 0, 0, 0, 0, 0, 0, 1, 2, 3, 4, 5] 0 4 = [0, 0, 0, 0] ∧
    unpackU32 (pySlice [0, 0, 0, 0, 0, 0, 0, 0, 1, 2, 3, 4, 5] 4 8) = some 0 ∧
    8 + 0 + 4 < ([0, 0, 0, 0, 0, 0, 0, 0, 1, 2, 3, 4, 5] : List Nat).length ∧
    decode_packet jsonNever [0, 0, 0, 0, 0, 0, 0, 0, 1, 2, 3, 4, 5] =
      DecodedPacket.parsingError "unpack requires a buffer of 4 bytes"
        (hexlify [0, 0, 0, 0, 0, 0, 0, 0, 1, 2, 3, 4, 5]) :=
  ⟨by decide, by decide, by decide,
    (c10_exact_length jsonNever [0, 0, 0, 0, 0, 0, 0, 0, 1, 2, 3, 4, 5] 0
      (by decide) (by decide)).1 (by decide)⟩

/-! ## Claim C6 -/

/-- C6: for every frame with zero preamble, declared length L, exactly
8 + L + 4 bytes, and a trailing big-endian expected CRC that differs from
crc16 of the L data bytes, decode_packet returns the corrupt variant
carrying the received and the computed value (first part).  Moreover
(second part), flipping any single bit inside the CRC-covered data bytes
of an otherwise valid frame always yields the corrupt variant, because a
single-bit change always alters the CRC-16 value. -/
theorem c6_crc_corrupt :
    (∀ (jload : List Nat → PyJson) (data : List Nat) (L : Nat),
      pySlice data 0 4 = [0, 0, 0, 0] →
      unpackU32 (pySlice data 4 8) = some L →
      data.length = 8 + L + 4 →
      beVal (data.drop (8 + L)) ≠ crc16 (pySlice data 8 (8 + L)) →
      decode_packet jload data =
        DecodedPacket.corrupt (beVal (data.drop (8 + L)))
          (crc16 (pySlice data 8 (8 + L)))) ∧
    (∀ (jload : List Nat → PyJson) (data : List Nat) (L i j : Nat),
      pySlice data 0 4 = [0, 0, 0, 0] →
      unpackU32 (pySlice data 4 8) = some L →
      data.length = 8 + L + 4 →
      beVal (data.drop (8 + L)) = crc16 (pySlice data 8 (8 + L)) →
      i < L → j < 8 →
      decode_packet jload (data.set (8 + i) (data.getD (8 + i) 0 ^^^ 1 <<< j)) =
        DecodedPacket.corrupt (crc16 (pySlice data 8 (8 + L)))
          (crc16 (pySlice (data.set (8 + i) (data.getD (8 + i) 0 ^^^ 1 <<< j)) 8 (8 + L)))) := by
  have part1 : ∀ (jload : List Nat → PyJson) (data : List Nat) (L : Nat),
      pySlice data 0 4 = [0, 0, 0, 0] →
      unpackU32 (pySlice data 4 8) = some L →
      data.length = 8 + L + 4 →
      beVal (data.drop (8 + L)) ≠ crc16 (pySlice data 8 (8 + L)) →
      decode_packet jload data =
        DecodedPacket.corrupt (beVal (data.drop (8 + L)))
          (crc16 (pySlice data 8 (8 + L))) := by
    intro jload data L h1 h2 h3 hne
    rw [decode_packet_eq_binary jload (by rw [head?_of_zero_preamble h1]; decide)]
    exact decodeBinary_corrupt h1 h2 h3 hne
  refine ⟨part1, ?_⟩
  intro jload data L i j h1 h2 h3 hcrc hi hj
  have hv0 : (1 <<< j : Nat) ≠ 0 := by
    rw [Nat.one_shiftLeft]
    exact (Nat.pos_pow_of_pos j (by norm_num)).ne'
  have hv16 : (1 <<< j : Nat) < 2 ^ 16 := by
    rw [Nat.one_shiftLeft]
    exact lt_of_le_of_lt (Nat.pow_le_pow_right (by norm_num) (by omega))
      (by norm_num : (2 : Nat) ^ 7 < 2 ^ 16)
  have hi8 : ¬(8 + i < 4) := by omega
  have hi4 : ¬(8 + i < 4 + 4) := by omega
  have h1' : pySlice (data.set (8 + i) (data.getD (8 + i) 0 ^^^ 1 <<< j)) 0 4 =
      [0, 0, 0, 0] := by
    rw [pySlice_zero_four, List.set_take,
      List.set_eq_of_length_le (by rw [List.length_take]; omega), ← pySlice_zero_four, h1]
  have h2' : pySlice (data.set (8 + i) (data.getD (8 + i) 0 ^^^ 1 <<< j)) 4 8 =
      pySlice data 4 8 := by
    unfold pySlice
    rw [List.drop_set, if_neg hi8, List.set_take,
      List.set_eq_of_length_le (by rw [List.length_take]; omega)]
  have hlen' : (data.set (8 + i) (data.getD (8 + i) 0 ^^^ 1 <<< j)).length = 8 + L + 4 := by
    rw [List.length_set, h3]
  have htr : (data.set (8 + i) (data.getD (8 + i) 0 ^^^ 1 <<< j)).drop (8 + L) =
      data.drop (8 + L) := by
    rw [List.drop_set, if_pos (by omega)]
  have hcdlen : (pySlice data 8 (8 + L)).length = L := by
    unfold pySlice
    rw [List.length_take, List.length_drop, h3]
    omega
  have hgd : data.getD (8 + i) 0 = (pySlice data 8 (8 + L)).getD i 0 := by
    unfold pySlice
    rw [List.getD_eq_getElem?_getD, List.getD_eq_getElem?_getD, List.getElem?_take,
      if_pos (by omega), List.getElem?_drop]
  have hcd2 : pySlice (data.set (8 + i) (data.getD (8 + i) 0 ^^^ 1 <<< j)) 8 (8 + L) =
      (pySlice data 8 (8 + L)).set i ((pySlice data 8 (8 + L)).getD i 0 ^^^ 1 <<< j) := by
    conv_lhs => rw [hgd]
    unfold pySlice
    rw [List.drop_set, if_neg (by omega), List.set_take]
    congr 2
    omega
  have hcne : crc16 (pySlice (data.set (8 + i) (data.getD (8 + i) 0 ^^^ 1 <<< j)) 8 (8 + L)) ≠
      crc16 (pySlice data 8 (8 + L)) := by
    rw [hcd2]
    exact crc16_set_ne (pySlice data 8 (8 + L)) i (1 <<< j) (by omega) hv0 hv16
  have hres := part1 jload (data.set (8 + i) (data.getD (8 + i) 0 ^^^ 1 <<< j)) L h1'
    (by rw [h2']; exact h2) hlen'
    (by rw [htr, hcrc]; exact fun hc => hcne (hc.symm))
  rw [hres, htr, hcrc]

/-- C6 witness: both parts at concrete frames.  corruptFrame has expected
CRC 0 against computed crc16 and decodes to the corrupt variant; flipping
bit 0 of the codec byte of the valid codec5Frame also decodes to the
corrupt variant carrying the original CRC and the new computed value. -/
theorem c6_crc_corrupt_witness :
    (pySlice corruptFrame 0 4 = [0, 0, 0, 0] ∧
      unpackU32 (pySlice corruptFrame 4 8) = some 1 ∧
      corruptFrame.length = 8 + 1 + 4 ∧
      beVal (corruptFrame.drop 9) ≠ crc16 (pySlice corruptFrame 8 9) ∧
      decode_packet jsonNever corruptFrame =
        DecodedPacket.corrupt (beVal (corruptFrame.drop 9))
          (crc16 (pySlice corruptFrame 8 9))) ∧
    (pySlice codec5Frame 0 4 = [0, 0, 0, 0] ∧
      unpackU32 (pySlice codec5Frame 4 8) = some 1 ∧
      codec5Frame.length = 8 + 1 + 4 ∧
      beVal (codec5Frame.drop 9) = crc16 (pySlice codec5Frame 8 9) ∧
      (0 : Nat) < 1 ∧ (0 : Nat) < 8 ∧
      decode_packet jsonNever (codec5Frame.set 8 (codec5Frame.getD 8 0 ^^^ 1 <<< 0)) =
        DecodedPacket.corrupt (crc16 (pySlice codec5Frame 8 9))
          (crc16 (pySlice (codec5Frame.set 8 (codec5Frame.getD 8 0 ^^^ 1 <<< 0)) 8 9))) :=
  ⟨⟨by decide, by decide, by decide, by decide,
      c6_crc_corrupt.1 jsonNever corruptFrame 1 (by decide) (by decide) (by decide)
        (by decide)⟩,
    ⟨by decide, by decide, by decide, by decide, by decide, by decide,
      c6_crc_corrupt.2 jsonNever codec5Frame 1 0 0 (by decide) (by decide) (by decide)
        (by decide) (by decide) (by decide)⟩⟩

/-! ## Claim C7 -/

/-- C7: counterexample.  The claim asserts the one-record result for
EVERY frame with declared count at least 1, but the record parse converts
the timestamp with datetime.fromtimestamp, which raises ValueError for
milliseconds beyond the year-9999 range: on the 28-byte payload whose
timestamp is 2 ^ 48 ms (year 10889), decode_codec8 fails, and the
well-formed frame around it decodes to the parsing-error variant rather
than to an AVL packet. -/
theorem c7_counterexample :
    avlCrcDataFar.length = 28 ∧
    1 ≤ avlCrcDataFar.getD 1 0 ∧
    beVal (pySlice avlCrcDataFar 2 10) = 2 ^ 48 ∧
    fromtimestampOk (2 ^ 48) = false ∧
    decode_codec8 (avlCrcDataFar ++ []) = none ∧
    hasParsingErrorRaw (decode_packet jsonNever avlFrameFar) (hexlify avlFrameFar) = true := by
  refine ⟨by decide, by decide, by decide, by decide, by decide, by decide⟩

/-- C7: amended claim.  For every Codec 8 / 8E payload of at least 28
bytes whose declared record count (byte 1) is at least 1 AND whose 8-byte
big-endian millisecond timestamp lies inside the datetime-representable
range (so datetime.fromtimestamp does not raise), decode_codec8 reports
record_count equal to the declared count but decodes exactly ONE record —
the first — reading its fields in strict order: 8-byte big-endian
millisecond timestamp, 1-byte priority, 4-byte big-endian signed
longitude (the stored value is this integer scaled by 1e-7), 4-byte
big-endian signed latitude (likewise), 2-byte signed altitude, 2-byte
unsigned angle, 1-byte satellites, 2-byte unsigned speed, 1-byte event IO
id, 1-byte total IO count.  Everything after byte 27 — the IO-element
payload — is ignored: the result does not depend on the arbitrary
suffix. -/
theorem c7_first_record_only (pre rest : List Nat) (hlen : pre.length = 28)
    (hn : 1 ≤ pre.getD 1 0)
    (hts : fromtimestampOk (beVal (pySlice pre 2 10)) = true) :
    decode_codec8 (pre ++ rest) =
      some { ptype := if pre.getD 0 0 = 0x8E then "Codec 8 Extended" else "Codec 8"
             record_count := pre.getD 1 0
             records := [{
               timestampMs := beVal (pySlice pre 2 10)
               priority := pre.getD 10 0
               longitude := toSigned32 (beVal (pySlice pre 11 15))
               latitude := toSigned32 (beVal (pySlice pre 15 19))
               altitude := toSigned16 (beVal (pySlice pre 19 21))
               angle := beVal (pySlice pre 21 23)
               satellites := pre.getD 23 0
               speed := beVal (pySlice pre 24 26)
               event_io_id := pre.getD 26 0
               total_io_count := pre.getD 27 0 }] } := by
  have hget : ∀ i, i < 28 → (pre ++ rest).get? i = some (pre.getD i 0) := by
    intro i hi
    have hip : i < pre.length := by omega
    rw [List.get?_eq_getElem?, List.getElem?_append, if_pos hip,
      List.getElem?_eq_getElem hip, List.getD_eq_getElem?_getD,
      List.getElem?_eq_getElem hip]
    rfl
  have hslice : ∀ a b : Nat, a ≤ b → b ≤ 28 → pySlice (pre ++ rest) a b = pySlice pre a b := by
    intro a b hab hb
    unfold pySlice
    rw [List.drop_append_of_le_length (by omega),
      List.take_append_of_le_length (by rw [List.length_drop]; omega)]
  have hsliceLen : ∀ a b : Nat, a ≤ b → b ≤ 28 → (pySlice pre a b).length = b - a := by
    intro a b hab hb
    unfold pySlice
    rw [List.length_take, List.length_drop, hlen]
    omega
  have h64 : unpackU64 (pySlice (pre ++ rest) 2 10) = some (beVal (pySlice pre 2 10)) := by
    rw [hslice 2 10 (by omega) (by omega)]
    unfold unpackU64
    rw [if_pos (by rw [hsliceLen 2 10 (by omega) (by omega)])]
  have hlon : unpackU32 (pySlice (pre ++ rest) 11 15) = some (beVal (pySlice pre 11 15)) := by
    rw [hslice 11 15 (by omega) (by omega)]
    unfold unpackU32
    rw [if_pos (by rw [hsliceLen 11 15 (by omega) (by omega)])]
  have hlat : unpackU32 (pySlice (pre ++ rest) 15 19) = some (beVal (pySlice pre 15 19)) := by
    rw [hslice 15 19 (by omega) (by omega)]
    unfold unpackU32
    rw [if_pos (by rw [hsliceLen 15 19 (by omega) (by omega)])]
  have halt : unpackU16 (pySlice (pre ++ rest) 19 21) = some (beVal (pySlice pre 19 21)) := by
    rw [hslice 19 21 (by omega) (by omega)]
    unfold unpackU16
    rw [if_pos (by rw [hsliceLen 19 21 (by omega) (by omega)])]
  have hang : unpackU16 (pySlice (pre ++ rest) 21 23) = some (beVal (pySlice pre 21 23)) := by
    rw [hslice 21 23 (by omega) (by omega)]
    unfold unpackU16
    rw [if_pos (by rw [hsliceLen 21 23 (by omega) (by omega)])]
  have hspd : unpackU16 (pySlice (pre ++ rest) 24 26) = some (beVal (pySlice pre 24 26)) := by
    rw [hslice 24 26 (by omega) (by omega)]
    unfold unpackU16
    rw [if_pos (by rw [hsliceLen 24 26 (by omega) (by omega)])]
  rw [decode_codec8, hget 0 (by omega), hget 1 (by omega)]
  rw [parseCodec8Record, h64, hget 10 (by omega), hlon, hlat, halt, hang,
    hget 23 (by omega), hspd, hget 26 (by omega), hget 27 (by omega)]
  simp only [Option.bind_eq_bind, Option.some_bind]
  rw [if_neg (show ¬(pre.getD 1 0 = 0) from by omega), if_pos hts]
  simp only [Option.bind_eq_bind, Option.some_bind, Option.map_some']

/-- C7 witness: the 28-byte codec-8 payload avlCrcData (declared count 3,
timestamp 0, well inside the datetime range) decodes, with an arbitrary
empty suffix, to record_count 3 and exactly one record with the stated
field extraction. -/
theorem c7_first_record_only_witness :
    avlCrcData.length = 28 ∧ 1 ≤ avlCrcData.getD 1 0 ∧
    fromtimestampOk (beVal (pySlice avlCrcData 2 10)) = true ∧
    decode_codec8 (avlCrcData ++ []) =
      some { ptype := if avlCrcData.getD 0 0 = 0x8E then "Codec 8 Extended" else "Codec 8"
             record_count := avlCrcData.getD 1 0
             records := [{
               timestampMs := beVal (pySlice avlCrcData 2 10)
               priority := avlCrcData.getD 10 0
               longitude := toSigned32 (beVal (pySlice avlCrcData 11 15))
               latitude := toSigned32 (beVal (pySlice avlCrcData 15 19))
               altitude := toSigned16 (beVal (pySlice avlCrcData 19 21))
               angle := beVal (pySlice avlCrcData 21 23)
               satellites := avlCrcData.getD 23 0
               speed := beVal (pySlice avlCrcData 24 26)
               event_io_id := avlCrcData.getD 26 0
               total_io_count := avlCrcData.getD 27 0 }] } :=
  ⟨by decide, by decide, by decide,
    c7_first_record_only avlCrcData [] (by decide) (by decide) (by decide)⟩

end ATerminal
